import Mathlib

/-!
Verification of the tool-call payload classification pipeline of the
LibreChat tool-call viewer: the resilient JSON parsing, the shape
classifiers for request and response payloads, and the capped
extraction used by the presentation layer.

The definitions below are a shallow embedding of the TypeScript source:
  - ToolCallInfo.tsx: formatText, getGraphQLQueryData, getTabularData,
    getGraphQLSchemaData, getGraphQLSDLData, QueryDisplay and the
    rendering caps;
  - the extracted display modules: getPythonCodeData, getPythonResultData,
    PythonResultDisplay, DataTable helpers, GraphQLSchemaDisplay,
    GraphQLSDLDisplay, QueryDisplay.

Modeling conventions, stated once:
  - JavaScript values produced by JSON.parse are modeled by the inductive
    type Json; "undefined" (a missing property) is modeled by Option.none
    at each access site.
  - Numeric literals are modeled as integers.  The payloads the viewer
    classifies carry counts and flags; no classifier computes with a
    number, so fractional and exponent literals are left outside the
    model and the embedded parser rejects them.
  - console.log calls are dropped, except where a log expression itself
    throws in the source (a .substring call on a truthy non-string value)
    and that throw changes control flow: there the model takes the same
    path the thrown exception takes.
  - Recursive functions are written with explicit fuel or structural
    recursion only, so every definition reduces inside the kernel and
    concrete runs are provable by rfl / decide.
-/

namespace ToolCallView

/-- JSON values as produced by a JavaScript JSON.parse call.  Object
fields are kept in insertion order; a duplicate key keeps its first
position and its last value, as JSON.parse does. -/
inductive Json where
  | null : Json
  | bool (b : Bool) : Json
  | num (n : Int) : Json
  | str (s : String) : Json
  | arr (elems : List Json) : Json
  | obj (fields : List (String × Json)) : Json

/-- JSON token whitespace, as accepted between tokens by JSON.parse. -/
def isJsonWs (c : Char) : Bool :=
  c = ' ' || c = '\t' || c = '\n' || c = '\r'

/-- Drop leading JSON whitespace. -/
def skipWs : List Char → List Char
  | [] => []
  | c :: cs => if isJsonWs c then skipWs cs else c :: cs

/-- Value of a hexadecimal digit. -/
def hexVal (c : Char) : Option Nat :=
  if 48 ≤ c.toNat ∧ c.toNat ≤ 57 then some (c.toNat - 48)
  else if 97 ≤ c.toNat ∧ c.toNat ≤ 102 then some (c.toNat - 87)
  else if 65 ≤ c.toNat ∧ c.toNat ≤ 70 then some (c.toNat - 55)
  else none

/-- Value of a decimal digit. -/
def digitVal (c : Char) : Option Nat :=
  if 48 ≤ c.toNat ∧ c.toNat ≤ 57 then some (c.toNat - 48) else none

/-- Split off a maximal run of decimal digits. -/
def takeDigits : List Char → List Char × List Char
  | [] => ([], [])
  | c :: cs =>
    if (digitVal c).isSome then
      let p := takeDigits cs
      (c :: p.1, p.2)
    else ([], c :: cs)

/-- Numeric value of a digit run. -/
def digitsVal (acc : Nat) : List Char → Nat
  | [] => acc
  | c :: cs => digitsVal (acc * 10 + (digitVal c).getD 0) cs

/-- Body of a JSON string literal, after the opening quote: decodes the
escape sequences JSON.parse accepts and stops at the closing quote.
Fueled so that it reduces in the kernel. -/
def parseStrBody : Nat → List Char → Option (List Char × List Char)
  | 0, _ => none
  | _ + 1, [] => none
  | fuel + 1, c :: cs =>
    if c = '"' then some ([], cs)
    else
      let step : Option (Char × List Char) :=
        if c = '\\' then
          match cs with
          | 'n' :: r => some ('\n', r)
          | 't' :: r => some ('\t', r)
          | 'r' :: r => some ('\r', r)
          | 'b' :: r => some (Char.ofNat 8, r)
          | 'f' :: r => some (Char.ofNat 12, r)
          | '"' :: r => some ('"', r)
          | '\\' :: r => some ('\\', r)
          | '/' :: r => some ('/', r)
          | 'u' :: h1 :: h2 :: h3 :: h4 :: r =>
            match hexVal h1, hexVal h2, hexVal h3, hexVal h4 with
            | some a, some b, some c2, some d =>
              some (Char.ofNat (((a * 16 + b) * 16 + c2) * 16 + d), r)
            | _, _, _, _ => none
          | _ => none
        else if c.toNat < 32 then none
        else some (c, cs)
      match step with
      | some (ch, rest) =>
        match parseStrBody fuel rest with
        | some (out, rem) => some (ch :: out, rem)
        | none => none
      | none => none

/-- A JSON integer literal: optional minus, no leading zeros; a literal
continuing with a fraction or exponent part is outside the model. -/
def parseNumber (cs : List Char) : Option (Json × List Char) :=
  let p : Bool × List Char :=
    match cs with
    | '-' :: rest => (true, rest)
    | _ => (false, cs)
  match takeDigits p.2 with
  | ([], _) => none
  | (ds, rest) =>
    if ds.length > 1 ∧ ds.headD '0' = '0' then none
    else
      match rest with
      | '.' :: _ => none
      | 'e' :: _ => none
      | 'E' :: _ => none
      | _ =>
        let n : Int := Int.ofNat (digitsVal 0 ds)
        some (.num (if p.1 then -n else n), rest)

/-- Insert a field into an object's field list the way repeated JSON keys
behave under JSON.parse: a present key keeps its position and takes the
new value, a new key is appended. -/
def upsert : List (String × Json) → String → Json → List (String × Json)
  | [], k, v => [(k, v)]
  | (k', v') :: rest, k, v =>
    if k' = k then (k, v) :: rest else (k', v') :: upsert rest k v

/-- Mode of the single fueled parsing loop: a value, the items of an
array after the opening bracket, or the members of an object after the
opening brace. -/
inductive PMode where
  | val : PMode
  | items (acc : List Json) : PMode
  | members (acc : List (String × Json)) : PMode

/-- One fueled recursive parser covering values, array items and object
members, mirroring the grammar JSON.parse accepts (integer numerals
only, see above). -/
def parseF : Nat → PMode → List Char → Option (Json × List Char)
  | 0, _, _ => none
  | fuel + 1, PMode.val, cs0 =>
    match skipWs cs0 with
    | [] => none
    | c :: rest =>
      if c = '\x7b' then
        match skipWs rest with
        | '\x7d' :: r2 => some (.obj [], r2)
        | cs1 => parseF fuel (.members []) cs1
      else if c = '[' then
        match skipWs rest with
        | ']' :: r2 => some (.arr [], r2)
        | cs1 => parseF fuel (.items []) cs1
      else if c = '"' then
        match parseStrBody (rest.length + 1) rest with
        | some (out, rem) => some (.str (String.mk out), rem)
        | none => none
      else if c = 't' then
        match rest with
        | 'r' :: 'u' :: 'e' :: r2 => some (.bool true, r2)
        | _ => none
      else if c = 'f' then
        match rest with
        | 'a' :: 'l' :: 's' :: 'e' :: r2 => some (.bool false, r2)
        | _ => none
      else if c = 'n' then
        match rest with
        | 'u' :: 'l' :: 'l' :: r2 => some (.null, r2)
        | _ => none
      else parseNumber (c :: rest)
  | fuel + 1, PMode.items acc, cs0 =>
    match parseF fuel .val cs0 with
    | some (v, rem) =>
      (match skipWs rem with
       | ',' :: r2 => parseF fuel (.items (acc ++ [v])) r2
       | ']' :: r2 => some (.arr (acc ++ [v]), r2)
       | _ => none)
    | none => none
  | fuel + 1, PMode.members acc, cs0 =>
    match skipWs cs0 with
    | '"' :: rest =>
      (match parseStrBody (rest.length + 1) rest with
       | some (key, rem) =>
         (match skipWs rem with
          | ':' :: r2 =>
            (match parseF fuel .val r2 with
             | some (v, rem2) =>
               (match skipWs rem2 with
                | ',' :: r3 => parseF fuel (.members (upsert acc (String.mk key) v)) r3
                | '\x7d' :: r3 => some (.obj (upsert acc (String.mk key) v), r3)
                | _ => none)
             | none => none)
          | _ => none)
       | none => none)
    | _ => none

/-- The embedding of JSON.parse: parse one value and require only
whitespace after it; any failure is None (the source's thrown
SyntaxError, always caught at each call site). -/
def parseJson (s : String) : Option Json :=
  let cs := s.toList
  match parseF (2 * cs.length + 8) .val cs with
  | some (v, rem) => if skipWs rem = [] then some v else none
  | none => none

/-! JavaScript value semantics at the places the source relies on them:
truthiness, typeof, property access (undefined modeled as none), the
`in` operator, Object.values and Object.keys. -/

/-- JS truthiness of a JSON value. -/
def truthy : Json → Bool
  | .null => false
  | .bool b => b
  | .num n => n != 0
  | .str s => !s.data.isEmpty
  | .arr _ => true
  | .obj _ => true

/-- Truthiness of a possibly-undefined value. -/
def truthyO : Option Json → Bool
  | none => false
  | some v => truthy v

/-- JS typeof x === "object" (true for objects, arrays and null). -/
def isObjTy : Json → Bool
  | .null => true
  | .arr _ => true
  | .obj _ => true
  | _ => false

/-- typeof on a possibly-undefined value. -/
def isObjTyO : Option Json → Bool
  | some v => isObjTy v
  | none => false

/-- Field lookup in an object's field list. -/
def lookupField : List (String × Json) → String → Option Json
  | [], _ => none
  | (k, v) :: rest, key => if k = key then some v else lookupField rest key

/-- JS property access on a JSON value: objects look the key up, every
other shape (arrays included, whose relevant properties here are never
string-keyed data fields) yields undefined. -/
def getField : Json → String → Option Json
  | .obj fs, k => lookupField fs k
  | _, _ => none

/-- Optional-chained property access. -/
def getFieldO (o : Option Json) (k : String) : Option Json :=
  match o with
  | some v => getField v k
  | none => none

/-- Array test. -/
def isArr : Json → Bool
  | .arr _ => true
  | _ => false

/-- First element of an array value. -/
def firstElem : Json → Option Json
  | .arr (x :: _) => some x
  | _ => none

/-- Non-empty array test. -/
def arrNonempty : Json → Bool
  | .arr (_ :: _) => true
  | _ => false

def isNull : Json → Bool
  | .null => true
  | _ => false

/-- Object.values: field values of an object, elements of an array. -/
def valuesOf : Json → List Json
  | .obj fs => fs.map Prod.snd
  | .arr xs => xs
  | _ => []

/-- Object.keys: keys of an object, index strings of an array. -/
def keysOf : Json → List String
  | .obj fs => fs.map Prod.fst
  | .arr xs => (List.range xs.length).map (fun i => Nat.repr i)
  | _ => []

/-- The JS `in` operator for a string key (arrays carry no such keys). -/
def hasKey (v : Json) (k : String) : Bool :=
  match v with
  | .obj fs => (lookupField fs k).isSome
  | _ => false

/-! JS string methods used by the source: includes, startsWith, endsWith,
trim, indexOf, lastIndexOf, substring, and the literal two-character
replace chains. -/

/-- Substring occurrence on character lists. -/
def strContainsAux (sub : List Char) : List Char → Bool
  | [] => sub.isEmpty
  | c :: cs => List.isPrefixOf sub (c :: cs) || strContainsAux sub cs

/-- JS String.prototype.includes. -/
def jsIncludes (s sub : String) : Bool := strContainsAux sub.data s.data

/-- JS String.prototype.startsWith. -/
def jsStartsWith (s p : String) : Bool := List.isPrefixOf p.data s.data

/-- JS String.prototype.endsWith. -/
def jsEndsWith (s p : String) : Bool := List.isPrefixOf p.data.reverse s.data.reverse

/-- The whitespace class of JS String.prototype.trim (ASCII part plus
no-break space; the rarer Unicode spaces never appear in the payloads
modeled here). -/
def jsWsChar (c : Char) : Bool :=
  c = ' ' || c = '\t' || c = '\n' || c = '\r' || c.toNat = 11 || c.toNat = 12 || c.toNat = 160

/-- JS String.prototype.trim. -/
def jsTrim (s : String) : String :=
  String.mk (((s.data.dropWhile jsWsChar).reverse.dropWhile jsWsChar).reverse)

/-- First index of a substring. -/
def indexOfAux (sub : List Char) (i : Nat) : List Char → Option Nat
  | [] => if sub.isEmpty then some i else none
  | c :: cs => if List.isPrefixOf sub (c :: cs) then some i else indexOfAux sub (i + 1) cs

/-- JS indexOf, with -1 modeled as none. -/
def jsIndexOf (s sub : String) : Option Nat := indexOfAux sub.data 0 s.data

/-- Last index of a substring. -/
def lastIndexOfAux (sub : List Char) (i : Nat) (best : Option Nat) : List Char → Option Nat
  | [] => if sub.isEmpty then some i else best
  | c :: cs =>
    lastIndexOfAux sub (i + 1) (if List.isPrefixOf sub (c :: cs) then some i else best) cs

/-- JS lastIndexOf, with -1 modeled as none. -/
def jsLastIndexOf (s sub : String) : Option Nat := lastIndexOfAux sub.data 0 none s.data

/-- JS substring(a, b) for a ≤ b within bounds. -/
def jsSubstring (s : String) (a b : Nat) : String := String.mk ((s.data.take b).drop a)

/-- Global replacement of the two-character sequence backslash-c by rep,
left to right without rescanning the replacement: the semantics of
s.replace(regex, rep) for the literal escape patterns of the source. -/
def replace2 (p2 : Char) (rep : List Char) : List Char → List Char
  | x :: y :: rest =>
    if x = '\\' ∧ y = p2 then rep ++ replace2 p2 rep rest
    else x :: replace2 p2 rep (y :: rest)
  | other => other

/-- One stage of an escape-cleanup chain. -/
def replaceEsc (c : Char) (rep : String) (s : String) : String :=
  String.mk (replace2 c rep.data s.data)

/-- The escape cleanup of QueryDisplay and PythonCodeDisplay: newline and
quote escapes to their characters, the tab escape to two spaces, and no
rule for the double-backslash sequence. -/
def formatQueryText (s : String) : String :=
  replaceEsc 't' "  " (replaceEsc '"' "\"" (replaceEsc 'n' "\n" s))

/-- The escape cleanup of GraphQLSDLDisplay: as above with the tab escape
replaced by two spaces, then double backslash to a single backslash. -/
def cleanSDLText (s : String) : String :=
  replaceEsc '\\' "\\" (replaceEsc 't' "  " (replaceEsc '"' "\"" (replaceEsc 'n' "\n" s)))

/-- The escape cleanup getPythonResultData applies to an envelope's inner
text before reparsing: newline, quote, tab (a real tab) and backslash. -/
def cleanPyInner (s : String) : String :=
  replaceEsc '\\' "\\" (replaceEsc 't' "\t" (replaceEsc '"' "\"" (replaceEsc 'n' "\n" s)))

/-- The unescape getPythonResultData applies to a byte-range-extracted
text field value (quote rule first, then newline, tab, backslash). -/
def unescapeExtracted (s : String) : String :=
  replaceEsc '\\' "\\" (replaceEsc 't' "\t" (replaceEsc 'n' "\n" (replaceEsc '"' "\"" s)))

/-- String() coercion of a JSON-representable JS value, as JSON.parse
applies to a non-string argument (array join with "," mapping null to
the empty string; fueled for the nesting depth, far beyond any payload). -/
def jsToStringF : Nat → Json → String
  | 0, _ => ""
  | _ + 1, .null => "null"
  | _ + 1, .bool true => "true"
  | _ + 1, .bool false => "false"
  | _ + 1, .num n => toString n
  | _ + 1, .str s => s
  | fuel + 1, .arr xs =>
    String.intercalate "," (xs.map fun x =>
      match x with
      | .null => ""
      | y => jsToStringF fuel y)
  | _ + 1, .obj _ => "[object Object]"

/-- JSON.parse applied to an arbitrary JS value: a non-string argument is
first coerced with String(); a missing value coerces to "undefined",
which fails to parse. -/
def jsonParseJS : Option Json → Option Json
  | some (.str s) => parseJson s
  | some v => parseJson (jsToStringF 64 v)
  | none => none

/-- Hex digit for JSON string escapes. -/
def hexDigit (n : Nat) : Char := if n < 10 then Char.ofNat (48 + n) else Char.ofNat (87 + n)

/-- JSON.stringify escaping of one character. -/
def quoteJsonChar (c : Char) : String :=
  if c = '"' then "\\\""
  else if c = '\\' then "\\\\"
  else if c = '\n' then "\\n"
  else if c = '\t' then "\\t"
  else if c = '\r' then "\\r"
  else if c.toNat = 8 then "\\b"
  else if c.toNat = 12 then "\\f"
  else if c.toNat < 32 then "\\u00" ++ String.mk [hexDigit (c.toNat / 16), hexDigit (c.toNat % 16)]
  else String.mk [c]

/-- JSON.stringify quoting of a string. -/
def quoteJson (s : String) : String :=
  "\"" ++ String.join (s.data.map quoteJsonChar) ++ "\""

/-- Indentation for JSON.stringify with a two-space indent. -/
def indentStr (n : Nat) : String := String.mk (List.replicate (2 * n) ' ')

/-- JSON.stringify(v, null, 2), fueled on nesting depth. -/
def stringifyF : Nat → Nat → Json → String
  | 0, _, _ => ""
  | _ + 1, _, .null => "null"
  | _ + 1, _, .bool true => "true"
  | _ + 1, _, .bool false => "false"
  | _ + 1, _, .num n => toString n
  | _ + 1, _, .str s => quoteJson s
  | _ + 1, _, .arr [] => "[]"
  | fuel + 1, ind, .arr xs =>
    "[\n" ++
      String.intercalate ",\n"
        (xs.map fun x => indentStr (ind + 1) ++ stringifyF fuel (ind + 1) x) ++
      "\n" ++ indentStr ind ++ "]"
  | _ + 1, _, .obj [] => "\x7b\x7d"
  | fuel + 1, ind, .obj fs =>
    "\x7b\n" ++
      String.intercalate ",\n"
        (fs.map fun kv => indentStr (ind + 1) ++ quoteJson kv.1 ++ ": " ++
          stringifyF fuel (ind + 1) kv.2) ++
      "\n" ++ indentStr ind ++ "\x7d"

/-- JSON.stringify(v, null, 2). -/
def stringify2 (v : Json) : String := stringifyF 64 0 v

/-- formatText from ToolCallInfo.tsx: pretty-print with a two-space
indent when the text parses as JSON, otherwise return the text
unchanged. -/
def formatText (t : String) : String :=
  match parseJson t with
  | some v => stringify2 v
  | none => t

/-! Request-side classifiers. -/

/-- getGraphQLQueryData: the request matches when it parses to a truthy
object-typed value whose query property is a truthy string.  Every
non-object parse fails the source's condition chain (an array has no
query property, primitives fail the typeof test, null is falsy), so only
the object case can match. -/
def getGraphQLQueryData (text : String) : Option Json :=
  match parseJson text with
  | some (.obj fs) =>
    (match lookupField fs "query" with
     | some (.str q) => if !q.data.isEmpty then some (.obj fs) else none
     | _ => none)
  | _ => none

/-- The word class of the regex word boundary. -/
def isWordChar (c : Char) : Bool := c.isAlpha || c.isDigit || c = '_'

/-- The SQL keywords of QueryDisplay's regex. -/
def sqlKeywords : List String :=
  ["SELECT", "INSERT", "UPDATE", "DELETE", "CREATE", "DROP", "ALTER", "WITH"]

/-- Case-insensitive character equality. -/
def ciEqChar (a b : Char) : Bool := a.toLower = b.toLower

/-- Case-insensitive prefix match. -/
def ciStarts : List Char → List Char → Bool
  | [], _ => true
  | _ :: _, [] => false
  | a :: as, b :: bs => ciEqChar a b && ciStarts as bs

/-- Word boundary after k characters of cs. -/
def boundaryAfter (cs : List Char) (k : Nat) : Bool :=
  match cs.drop k with
  | [] => true
  | c :: _ => !isWordChar c

/-- A keyword occurrence at the head of cs, with prev the character just
before it (none at the string start): both regex word boundaries hold
and the keyword matches case-insensitively. -/
def kwHere (kw : List Char) (prev : Option Char) (cs : List Char) : Bool :=
  (match prev with
   | none => true
   | some c => !isWordChar c) &&
  ciStarts kw cs && boundaryAfter cs kw.length

/-- Scan for a keyword occurrence, carrying the previous character. -/
def sqlScanAux (prev : Option Char) : List Char → Bool
  | [] => false
  | c :: cs => sqlKeywords.any (fun kw => kwHere kw.data prev (c :: cs)) || sqlScanAux (some c) cs

/-- The test of QueryDisplay's SQL regex: a SQL keyword at a word
boundary, case-insensitively, anywhere in the query. -/
def hasSQLKeyword (q : String) : Bool := sqlScanAux none q.data

/-- The query kinds QueryDisplay distinguishes. -/
inductive QueryKind where
  | graphql : QueryKind
  | sql : QueryKind
  | generic : QueryKind

/-- QueryDisplay's GraphQL test: a truthy query whose trimmed text starts
with query, mutation or subscription, or that contains both braces. -/
def looksGraphQL (q : String) : Bool :=
  !q.data.isEmpty &&
  (jsStartsWith (jsTrim q) "query" || jsStartsWith (jsTrim q) "mutation" ||
   jsStartsWith (jsTrim q) "subscription" ||
   (jsIncludes q "\x7b" && jsIncludes q "\x7d"))

/-- QueryDisplay's SQL test (the truthiness guard matters only for the
empty query). -/
def hasSQLQuery (q : String) : Bool := !q.data.isEmpty && hasSQLKeyword q

/-- The query kind QueryDisplay assigns: GraphQL wins over SQL, the
default is the generic label. -/
def queryKindOf (q : String) : QueryKind :=
  if looksGraphQL q then .graphql else if hasSQLQuery q then .sql else .generic

/-- The Python-likelihood heuristic of getPythonCodeData. -/
def pythonish (code : String) : Bool :=
  jsIncludes code "import " || jsIncludes code "def " || jsIncludes code "print(" ||
  jsIncludes code "plt." || jsIncludes code "np." || jsIncludes code "pd." ||
  jsIncludes code "=" ||
  (match code.data.dropWhile jsWsChar with
   | '#' :: _ => true
   | _ => false)

/-- getPythonCodeData: the request matches when it parses to an object
whose code property is a truthy string passing the heuristic; the
extracted object is the parse with a language field set to python (the
object spread keeps field order, replacing an existing language field in
place). -/
def getPythonCodeData (text : String) : Option Json :=
  match parseJson text with
  | some (.obj fs) =>
    (match lookupField fs "code" with
     | some (.str code) =>
       if !code.data.isEmpty && pythonish code then
         some (.obj (upsert fs "language" (.str "python")))
       else none
     | _ => none)
  | _ => none

/-! Response-side classifiers. -/

/-- The string-level gate of getPythonResultData: a success marker plus
one of plot, output, error, each in plain or backslash-escaped form. -/
def pyPrefilter (text : String) : Bool :=
  (jsIncludes text "\"success\"" || jsIncludes text "\\\"success\\\"") &&
  (jsIncludes text "\"plot\"" || jsIncludes text "\\\"plot\\\"" ||
   jsIncludes text "\"output\"" || jsIncludes text "\\\"output\\\"" ||
   jsIncludes text "\"error\"" || jsIncludes text "\\\"error\\\"")

/-- The Python result shape: a truthy object-typed value with a success
property and at least one of output, error, plot. -/
def pyShape (v : Json) : Bool :=
  truthy v && isObjTy v && (getField v "success").isSome &&
  ((getField v "output").isSome || (getField v "error").isSome || (getField v "plot").isSome)

/-- The strict-equality test first.type === "text" shared by the
envelope branches. -/
def typeIsText (first : Json) : Bool :=
  match getField first "type" with
  | some (.str t) => t = "text"
  | _ => false

/-- The envelope guard of getPythonResultData's array branch: the first
element's type is the string text and its text property is truthy. -/
def envCond (first : Json) : Bool :=
  typeIsText first && truthyO (getField first "text")

/-- The body of getPythonResultData's outer try after a successful parse.
Result some r: the body returned r (none standing for the final return
null).  Result none: a property access threw (the first array element is
null, or a debug log calls substring on a truthy non-string text) and
control reaches the outer catch.  An array that leaves its branch
without returning always fails the closing direct-object check, whose
success test an array cannot pass. -/
def pyMainTry (parsed : Json) : Option (Option Json) :=
  match parsed with
  | .arr (first :: _) =>
    if isNull first then none
    else if envCond first then
      match getField first "text" with
      | some (.str s) =>
        (match (match parseJson s with
                | some d => some d
                | none => parseJson (cleanPyInner s)) with
         | some inner => some (if pyShape inner then some inner else none)
         | none => some none)
      | _ => none
    else if (getField first "success").isSome then some (some first)
    else some none
  | .arr [] => some none
  | _ => some (if pyShape parsed then some parsed else none)

/-- The escape-aware quote scan of getPythonResultData's fallback: a
backslash bumps the escape count, an unescaped quote (even count) ends
the field, any other character resets the count.  Returns the absolute
index of the terminating quote. -/
def quoteScanAux (i : Nat) (e : Nat) : List Char → Option Nat
  | [] => none
  | c :: cs =>
    if c = '\\' then quoteScanAux (i + 1) (e + 1) cs
    else if c = '"' && e % 2 == 0 then some i
    else quoteScanAux (i + 1) 0 cs

/-- getPythonResultData's recovery on a failed (or thrown-out-of) parse,
applied to the trimmed text: byte-range extraction of a text field value
for bracket-prefixed envelopes, then truncation repair for brace-prefixed
objects.  A parse failure inside either branch reaches the second catch
and yields null; a bracket-prefixed string that falls through its branch
cannot satisfy the brace branch's guard. -/
def pyFallback (ct : String) : Option Json :=
  if jsStartsWith ct "[" && jsIncludes ct "\"type\":\"text\"" then
    match jsIndexOf ct "\"text\":\"" with
    | some idx =>
      (match quoteScanAux (idx + 8) 0 (ct.data.drop (idx + 8)) with
       | some endi =>
         if idx + 8 < endi then
           (match parseJson (unescapeExtracted (jsSubstring ct (idx + 8) endi)) with
            | some inner =>
              if truthy inner && isObjTy inner && (getField inner "success").isSome then
                some inner
              else none
            | none => none)
         else none
       | none => none)
    | none => none
  else if jsStartsWith ct "\x7b" then
    let ct2 :=
      if jsEndsWith ct "\x7d" then ct
      else
        match jsLastIndexOf ct "\"\x7d" with
        | some li => jsSubstring ct 0 (li + 2) ++ "\x7d"
        | none => ct ++ "\x7d"
    match parseJson ct2 with
    | some r =>
      if truthy r && isObjTy r && (getField r "success").isSome then some r else none
    | none => none
  else none

/-- getPythonResultData: the falsy-text gate, the string-level
pre-filter, the parse with its classification body, and the recovery
fallback when the parse (or a property access after it) throws. -/
def getPythonResultData (text : String) : Option Json :=
  if text.data.isEmpty then none
  else if !pyPrefilter text then none
  else
    match parseJson text with
    | some parsed =>
      (match pyMainTry parsed with
       | some r => r
       | none => pyFallback (jsTrim text))
    | none => pyFallback (jsTrim text)

/-- The array-of-objects test of getTabularData: some property holds a
non-empty array whose first element is a non-null object-typed value. -/
def hasTabularShape (v : Json) : Bool :=
  (valuesOf v).any fun w =>
    match w with
    | .arr (x :: _) => isObjTy x && !isNull x
    | _ => false

/-- The aggregate test of getTabularData: some property holds a truthy
object-typed value with an aggregate key. -/
def hasAggregateShape (v : Json) : Bool :=
  (valuesOf v).any fun w => truthy w && isObjTy w && hasKey w "aggregate"

/-- The closing two checks of getTabularData: a truthy object-typed
value with tabular or aggregate shape is returned as is; a non-empty
array whose first element is a non-null object-typed value is wrapped
under a synthetic data field. -/
def tabularTail (parsed : Json) : Option Json :=
  if truthy parsed && isObjTy parsed && (hasTabularShape parsed || hasAggregateShape parsed) then
    some parsed
  else
    match parsed with
    | .arr (x :: _) => if isObjTy x && !isNull x then some (.obj [("data", parsed)]) else none
    | _ => none

/-- getTabularData: a truthy object-typed data property is returned
without any shape check; a text envelope's inner parse is consulted for
an inner data property (again unchecked) or direct tabular shape; then
the direct checks of tabularTail run on the parsed value itself.  A null
first array element makes the source throw on its type access, and the
catch returns null. -/
def getTabularData (text : String) : Option Json :=
  if text.data.isEmpty then none
  else
    match parseJson text with
    | none => none
    | some parsed =>
      if truthy parsed && isObjTy parsed && truthyO (getField parsed "data") &&
          isObjTyO (getField parsed "data") then
        getField parsed "data"
      else
        match parsed with
        | .arr (first :: _) =>
          if isNull first then none
          else if typeIsText first then
            (match jsonParseJS (getField first "text") with
             | some inner =>
               if truthy inner && isObjTy inner then
                 (if truthyO (getField inner "data") && isObjTyO (getField inner "data") then
                    getField inner "data"
                  else if hasTabularShape inner then some inner
                  else tabularTail parsed)
               else tabularTail parsed
             | none => tabularTail parsed)
          else tabularTail parsed
        | _ => tabularTail parsed

/-- The introspection-shape test of getGraphQLSchemaData: a schema
property, a data.schema property, an array types property, or a truthy
root-type name property. -/
def hasSchemaStructure (v : Json) : Bool :=
  truthyO (getField v "__schema") ||
  (truthyO (getField v "data") && truthyO (getFieldO (getField v "data") "__schema")) ||
  (truthyO (getField v "types") &&
    (match getField v "types" with
     | some (.arr _) => true
     | _ => false)) ||
  truthyO (getField v "queryType") || truthyO (getField v "mutationType") ||
  truthyO (getField v "subscriptionType")

/-- getGraphQLSchemaData: the shape test on the parsed value, else one
text-envelope unwrap and the shape test on the inner parse.  A parsed
null throws on the very first property access and the catch returns
null; likewise a null first array element, and a null inner parse throws
inside the inner try. -/
def getGraphQLSchemaData (text : String) : Option Json :=
  if text.data.isEmpty then none
  else
    match parseJson text with
    | none => none
    | some parsed =>
      if isNull parsed then none
      else if hasSchemaStructure parsed then some parsed
      else
        match parsed with
        | .arr (first :: _) =>
          if isNull first then none
          else if typeIsText first then
            (match jsonParseJS (getField first "text") with
             | some inner =>
               if isNull inner then none
               else if hasSchemaStructure inner then some inner
               else none
             | none => none)
          else none
        | _ => none

/-- The text-property check of getGraphQLSDLData: a truthy string text
property containing both the schema and the type substrings. -/
def sdlTextProp (parsed : Json) : Option Json :=
  match getField parsed "text" with
  | some (.str s) =>
    if !s.data.isEmpty && jsIncludes s "schema" && jsIncludes s "type" then some parsed
    else none
  | _ => none

/-- getGraphQLSDLData: the text-envelope check (a truthy non-string text
makes the includes call throw, and the catch returns null), then the
text-property check.  A parsed null throws on its text access; no branch
ever examines the raw string itself. -/
def getGraphQLSDLData (text : String) : Option Json :=
  if text.data.isEmpty then none
  else
    match parseJson text with
    | none => none
    | some parsed =>
      match parsed with
      | .arr (first :: _) =>
        if isNull first then none
        else if typeIsText first && truthyO (getField first "text") then
          (match getField first "text" with
           | some (.str s) =>
             if jsIncludes s "schema" && jsIncludes s "type" then some parsed
             else sdlTextProp parsed
           | _ => none)
        else sdlTextProp parsed
      | .null => none
      | _ => sdlTextProp parsed

/-! The capped projections the displays build from a classified value. -/

/-- A projected table of DataTable's renderArrayData. -/
structure ProjTable where
  name : String
  columns : List String
  rows : List Json
  totalRowCount : Nat
  truncated : Bool

/-- Deduplication keeping the first occurrence (the Set-union order of
the source's column computation). -/
def dedupAux (seen : List String) : List String → List String
  | [] => []
  | x :: xs => if seen.contains x then dedupAux seen xs else x :: dedupAux (x :: seen) xs

/-- Object.entries for the shapes DataTable receives. -/
def entriesOf : Json → List (String × Json)
  | .obj fs => fs
  | .arr xs => xs.enum.map (fun p => (Nat.repr p.1, p.2))
  | _ => []

/-- The non-empty-array entries renderArrayData selects. -/
def arrayEntriesOf (v : Json) : List (String × List Json) :=
  (entriesOf v).filterMap fun kv =>
    match kv.2 with
    | .arr (x :: xs) => some (kv.1, x :: xs)
    | _ => none

/-- The column union of renderArrayData: keys of the truthy object-typed
elements, in order of first appearance. -/
def columnsOf (xs : List Json) : List String :=
  dedupAux [] (List.flatten (xs.map fun item => if isObjTy item && truthy item then keysOf item else []))

/-- renderArrayData's projection of one non-empty array field: skipped
when the column union is empty, otherwise rows capped at 50, the true
length kept, and a truncation flag exactly when the cap cut rows. -/
def projectTable (k : String) (xs : List Json) : Option ProjTable :=
  match columnsOf xs with
  | [] => none
  | c :: cs => some ⟨k, c :: cs, xs.take 50, xs.length, decide (50 < xs.length)⟩

/-- All tables renderArrayData projects from a classified value. -/
def projectTables (v : Json) : List ProjTable :=
  (arrayEntriesOf v).filterMap fun kv => projectTable kv.1 kv.2

/-- The effective schema object of GraphQLSchemaDisplay: the schema
property, else the data property's schema, else the value itself (the
JS or-chain on truthiness). -/
def effectiveSchema (data : Json) : Json :=
  let s1 := getField data "__schema"
  if truthyO s1 then s1.getD .null
  else
    let s2 := getFieldO (getField data "data") "__schema"
    if truthyO s2 then s2.getD .null else data

/-- The filter of introspection-internal types.  The source calls
startsWith on type.name; a non-string name would make the renderer
throw, and the caps proved below are independent of the predicate, so a
non-string name is modeled as kept. -/
def typeNotDunder (t : Json) : Bool :=
  match getField t "name" with
  | some (.str s) => !jsStartsWith s "__"
  | _ => true

/-- GraphQLSchemaDisplay's filtered type list. -/
def filteredTypes (ts : List Json) : List Json := ts.filter typeNotDunder

/-- The type descriptors shown: the filtered list capped at 20. -/
def typesShown (ts : List Json) : List Json := (filteredTypes ts).take 20

/-- The total the overflow note reports: the filtered length. -/
def typesTotal (ts : List Json) : Nat := (filteredTypes ts).length

/-- renderType's shown fields: capped at 10. -/
def fieldsShown (t : Json) : List Json :=
  match getField t "fields" with
  | some (.arr fs) => fs.take 10
  | _ => []

/-- renderType's overflow note: the count of fields beyond the first
ten. -/
def fieldsOverflow (t : Json) : Nat :=
  match getField t "fields" with
  | some (.arr fs) => fs.length - 10
  | _ => 0

/-! The two dispatches.  The classifier modules above are the
repository's source; the refactored ToolCallInfo call site that chains
them (the one including the Python classifiers) is not among the staged
files, so the two drivers below are modelled from the spec. -/

/-- The response categories of the spec's data model. -/
inductive ResponseCategory where
  | pythonResult (extracted : Json) : ResponseCategory
  | graphqlSchema (extracted : Json) : ResponseCategory
  | graphqlSDL (extracted : Json) : ResponseCategory
  | tabularData (extracted : Json) : ResponseCategory
  | plainText (extracted : String) : ResponseCategory

/-- Modelled from the spec: the response dispatch of the refactored
ToolCallInfo call site, absent from the staged files (only the
classifier modules it calls are present).  The spec fixes the priority
Python Execution Result, then Schema Introspection, then SDL, then
Tabular, then plain text; each classifier and the plain-text fallback
(formatText) are the source definitions above. -/
def classifyResponse (text : String) : ResponseCategory :=
  match getPythonResultData text with
  | some d => .pythonResult d
  | none =>
    match getGraphQLSchemaData text with
    | some d => .graphqlSchema d
    | none =>
      match getGraphQLSDLData text with
      | some d => .graphqlSDL d
      | none =>
        match getTabularData text with
        | some d => .tabularData d
        | none => .plainText (formatText text)

/-- The request categories of the spec's data model. -/
inductive RequestCategory where
  | graphqlQuery (extracted : Json) : RequestCategory
  | pythonCode (extracted : Json) : RequestCategory
  | plainText (extracted : String) : RequestCategory

/-- Modelled from the spec: the request dispatch (GraphQL query, then
Python code, then plain text); the classifiers and formatText are the
source definitions above. -/
def classifyRequest (text : String) : RequestCategory :=
  match getGraphQLQueryData text with
  | some d => .graphqlQuery d
  | none =>
    match getPythonCodeData text with
    | some d => .pythonCode d
    | none => .plainText (formatText text)

/-! Spec-side definitions: each is stated from the specification's (or a
claim's) words, clearly named with a spec or amended prefix, for
comparison against the source definitions above. -/

/-- The spec's Escape Normalizer, stated from its words: the four
literal sequences replaced by newline, double quote, tab and a single
backslash, in that order, the double-backslash rule last. -/
def specEscapeNormalize (s : String) : String :=
  replaceEsc '\\' "\\" (replaceEsc 't' "\t" (replaceEsc '"' "\"" (replaceEsc 'n' "\n" s)))

/-- The claim's GraphQL-look rule, stated from its words: the trimmed
query starts with query, mutation or subscription, or the query contains
both braces. -/
def SpecGraphQLLook (q : String) : Prop :=
  jsStartsWith (jsTrim q) "query" = true ∨ jsStartsWith (jsTrim q) "mutation" = true ∨
  jsStartsWith (jsTrim q) "subscription" = true ∨
  (jsIncludes q "\x7b" = true ∧ jsIncludes q "\x7d" = true)

/-- An occurrence of one of the SQL keywords at a word boundary: the
query splits as pre, a case-insensitive copy of the keyword, post, with
no word character ending pre and no word character starting post. -/
def SpecSQLMatch (q : String) : Prop :=
  ∃ pre mid post, q.data = pre ++ mid ++ post ∧
    (∃ kw ∈ sqlKeywords, mid.length = kw.data.length ∧ ciStarts kw.data mid = true) ∧
    (pre = [] ∨ ∃ pre' c, pre = pre' ++ [c] ∧ isWordChar c = false) ∧
    (post = [] ∨ ∃ c post', post = c :: post' ∧ isWordChar c = false)

/-- The character scanned just before the current suffix: the last of
pre when pre is non-empty, else the carried previous character. -/
def lastOr (prev : Option Char) : List Char → Option Char
  | [] => prev
  | c :: cs => lastOr (some c) cs

/-- Step 2 of the amended recovery description: on a bracket-prefixed
trimmed text carrying the envelope marker, the escape-aware byte-range
extraction of the text field value, its unescape, a parse, and the
success-field gate. -/
def extractStep (ct : String) : Option Json :=
  match jsIndexOf ct "\"text\":\"" with
  | some idx =>
    (match quoteScanAux (idx + 8) 0 (ct.data.drop (idx + 8)) with
     | some endi =>
       if idx + 8 < endi then
         (match parseJson (unescapeExtracted (jsSubstring ct (idx + 8) endi)) with
          | some inner =>
            if truthy inner && isObjTy inner && (getField inner "success").isSome then
              some inner
            else none
          | none => none)
       else none
     | none => none)
  | none => none

/-- Step 3 of the amended recovery description: on a brace-prefixed
trimmed text, truncation repair at the last quote-brace occurrence (or a
bare appended brace), a parse, and the success-field gate. -/
def repairStep (ct : String) : Option Json :=
  let ct2 :=
    if jsEndsWith ct "\x7d" then ct
    else
      match jsLastIndexOf ct "\"\x7d" with
      | some li => jsSubstring ct 0 (li + 2) ++ "\x7d"
      | none => ct ++ "\x7d"
  match parseJson ct2 with
  | some r =>
    if truthy r && isObjTy r && (getField r "success").isSome then some r else none
  | none => none

/-- The amended fallback order: the guarded extraction step, else the
guarded repair step, else the unparseable marker; no whole-string escape
normalization is ever attempted. -/
def amendedFallbackSteps (ct : String) : Option Json :=
  if jsStartsWith ct "[" && jsIncludes ct "\"type\":\"text\"" then extractStep ct
  else if jsStartsWith ct "\x7b" then repairStep ct
  else none

/-- The amended recovery description of getPythonResultData: after the
falsy and pre-filter gates, the direct parse runs first; on its success
the parsed value is classified (a thrown property access inside the
array branch reaching the catch included), and only on a parse failure
or such a throw do the guarded fallback steps run on the trimmed text. -/
def amendedRecovery (t : String) : Option Json :=
  if t.data.isEmpty || !pyPrefilter t then none
  else
    match parseJson t with
    | some p =>
      (match pyMainTry p with
       | some r => r
       | none => amendedFallbackSteps (jsTrim t))
    | none => amendedFallbackSteps (jsTrim t)

/-- The closing two checks of the amended tabular description, as a
predicate. -/
def amendedTabularTailB (parsed : Json) : Bool :=
  (truthy parsed && isObjTy parsed && (hasTabularShape parsed || hasAggregateShape parsed)) ||
  (match parsed with
   | .arr (x :: _) => isObjTy x && !isNull x
   | _ => false)

/-- The amended tabular-match description, stated from the amended
claim's words: a truthy object-typed data property matches with no
shape check; else a text envelope's inner parse matches on an inner
truthy object-typed data property (again unchecked) or on inner tabular
shape; else the parsed value itself matches on tabular or aggregate
shape, or as a bare array of objects; a null first array element makes
the classifier throw into its catch and never match. -/
def amendedTabularMatch (parsed : Json) : Bool :=
  if truthy parsed && isObjTy parsed && truthyO (getField parsed "data") &&
      isObjTyO (getField parsed "data") then true
  else
    match parsed with
    | .arr (first :: _) =>
      if isNull first then false
      else if typeIsText first then
        (match jsonParseJS (getField first "text") with
         | some inner =>
           if truthy inner && isObjTy inner then
             (if truthyO (getField inner "data") && isObjTyO (getField inner "data") then true
              else if hasTabularShape inner then true
              else amendedTabularTailB parsed)
           else amendedTabularTailB parsed
         | none => amendedTabularTailB parsed)
      else amendedTabularTailB parsed
    | _ => amendedTabularTailB parsed

/-- The amended SDL-match description, stated from the amended claim's
words: a text envelope whose first element carries a truthy string text
containing both substrings, else a value with a truthy string text
property containing both substrings; the raw response string itself is
never consulted, and a null or truthy non-string in the way of a
property or includes call makes the classifier throw into its catch and
never match. -/
def amendedSDLMatch (parsed : Json) : Bool :=
  match parsed with
  | .arr (first :: _) =>
    if isNull first then false
    else if typeIsText first && truthyO (getField first "text") then
      (match getField first "text" with
       | some (.str s) =>
         if jsIncludes s "schema" && jsIncludes s "type" then true
         else (sdlTextProp parsed).isSome
       | _ => false)
    else (sdlTextProp parsed).isSome
  | .null => false
  | _ => (sdlTextProp parsed).isSome

/-! Concrete payloads used by individual claims. -/

/-- The priority scenario's payload text. -/
def prioPayload : String :=
  "\x7b\"success\":true,\"output\":\"ok\",\"types\":[\x7b\"a\":1\x7d,\x7b\"a\":2\x7d]\x7d"

/-- The priority scenario's parsed value. -/
def prioParsed : Json :=
  .obj [("success", .bool true), ("output", .str "ok"),
    ("types", .arr [.obj [("a", .num 1)], .obj [("a", .num 2)]])]

/-- A whole-string-escaped Python result payload: direct parse fails,
escape normalization would repair it, the source never tries that. -/
def escapedPayload : String := "\x7b\\\"success\\\":true,\\\"output\\\":\\\"ok\\\"\x7d"

/-- The truncation-repair scenario's payload (closing brace missing). -/
def truncatedPayload : String := "\x7b\"success\":true,\"output\":\"done\""

/-- A non-JSON text holding a literal backslash-t sequence. -/
def rawBackslashText : String := "not json \\t at all"

/-- An unwrapped object whose data property has neither tabular nor
aggregate shape. -/
def plainDataPayload : String := "\x7b\"data\":\x7b\"x\":1\x7d\x7d"

/-- A bare SDL text containing both the schema and type substrings. -/
def bareSDLText : String := "schema \x7b query: Query \x7d type Query \x7b id: ID \x7d"

/-- A classified value with one array field of 73 object rows. -/
def rows73 : Json := .obj [("items", .arr (List.replicate 73 (.obj [("a", .num 1)])))]

/-- The table renderArrayData projects from rows73. -/
def rows73Table : ProjTable :=
  ⟨"items", ["a"], List.replicate 50 (.obj [("a", .num 1)]), 73, true⟩

/-- A request whose query field holds a literal backslash-t sequence. -/
def escQueryPayload : String := "\x7b\"query\":\"a\\\\tb\"\x7d"

/-- A request with an empty query field. -/
def emptyQueryPayload : String := "\x7b\"query\":\"\"\x7d"

/-- A request with an empty code field. -/
def emptyCodePayload : String := "\x7b\"code\":\"\"\x7d"

/-! Helper lemmas. -/

/-- An empty text never parses. -/
theorem parseJson_of_empty (t : String) (h : t.data.isEmpty = true) : parseJson t = none := by
  have h1 : t.data = [] := by simpa using h
  have h2 : t.toList = [] := h1
  simp only [parseJson, h2]
  rfl

/-- The closing checks of getTabularData match exactly when the amended
tail predicate holds. -/
theorem tabularTail_isSome (p : Json) : (tabularTail p).isSome = amendedTabularTailB p := by
  unfold tabularTail amendedTabularTailB
  cases h : (truthy p && isObjTy p && (hasTabularShape p || hasAggregateShape p)) with
  | true => simp [h]
  | false =>
    simp only [h, Bool.false_eq_true, if_false, Bool.false_or]
    cases p with
    | arr xs =>
      cases xs with
      | nil => simp
      | cons x rest => cases hc : (isObjTy x && !isNull x) <;> simp [hc]
    | null => simp
    | bool b => simp
    | num n => simp
    | str s => simp
    | obj fs => simp

/-- A two-character replacement leaves a backslash-free text unchanged. -/
theorem replace2_no_backslash (p2 : Char) (rep : List Char) :
    ∀ cs : List Char, '\\' ∉ cs → replace2 p2 rep cs = cs := by
  intro cs
  induction cs with
  | nil => intro _; rfl
  | cons x xs ih =>
    intro h
    cases xs with
    | nil => rfl
    | cons y rest =>
      have hx : x ≠ '\\' := fun hx => h (hx ▸ List.mem_cons_self x (y :: rest))
      have hxs : '\\' ∉ y :: rest := fun hm => h (List.mem_cons_of_mem x hm)
      unfold replace2
      rw [if_neg]
      · rw [ih hxs]
      · intro hc
        exact hx hc.1

/-- A replacement stage leaves a backslash-free string unchanged. -/
theorem replaceEsc_no_backslash (c : Char) (rep : String) (s : String)
    (h : '\\' ∉ s.data) : replaceEsc c rep s = s := by
  unfold replaceEsc
  rw [replace2_no_backslash c rep.data s.data h]

/-- The query/code escape cleanup fixes backslash-free strings. -/
theorem formatQueryText_id (s : String) (h : '\\' ∉ s.data) : formatQueryText s = s := by
  unfold formatQueryText
  rw [replaceEsc_no_backslash 'n' _ s h, replaceEsc_no_backslash '"' _ s h,
      replaceEsc_no_backslash 't' _ s h]

/-- The SDL escape cleanup fixes backslash-free strings. -/
theorem cleanSDLText_id (s : String) (h : '\\' ∉ s.data) : cleanSDLText s = s := by
  unfold cleanSDLText
  rw [replaceEsc_no_backslash 'n' _ s h, replaceEsc_no_backslash '"' _ s h,
      replaceEsc_no_backslash 't' _ s h, replaceEsc_no_backslash '\\' _ s h]

/-- The Python inner escape cleanup fixes backslash-free strings. -/
theorem cleanPyInner_id (s : String) (h : '\\' ∉ s.data) : cleanPyInner s = s := by
  unfold cleanPyInner
  rw [replaceEsc_no_backslash 'n' _ s h, replaceEsc_no_backslash '"' _ s h,
      replaceEsc_no_backslash 't' _ s h, replaceEsc_no_backslash '\\' _ s h]

/-- The extraction unescape fixes backslash-free strings. -/
theorem unescapeExtracted_id (s : String) (h : '\\' ∉ s.data) : unescapeExtracted s = s := by
  unfold unescapeExtracted
  rw [replaceEsc_no_backslash '"' _ s h, replaceEsc_no_backslash 'n' _ s h,
      replaceEsc_no_backslash 't' _ s h, replaceEsc_no_backslash '\\' _ s h]

/-- A case-insensitive prefix is no longer than the text. -/
theorem ciStarts_le (kw : List Char) : ∀ cs, ciStarts kw cs = true → kw.length ≤ cs.length := by
  induction kw with
  | nil => intro cs _; simp
  | cons a as ih =>
    intro cs h
    cases cs with
    | nil => simp [ciStarts] at h
    | cons b bs =>
      simp only [ciStarts, Bool.and_eq_true] at h
      simpa using ih bs h.2

/-- A case-insensitive prefix match survives truncation to its own
length. -/
theorem ciStarts_take (kw : List Char) : ∀ cs, ciStarts kw cs = true →
    ciStarts kw (cs.take kw.length) = true := by
  induction kw with
  | nil => intro cs _; rfl
  | cons a as ih =>
    intro cs h
    cases cs with
    | nil => simp [ciStarts] at h
    | cons b bs =>
      simp only [ciStarts, Bool.and_eq_true] at h
      simpa only [List.take, ciStarts, Bool.and_eq_true] using ⟨h.1, ih bs h.2⟩

/-- A full-length case-insensitive match extends over any suffix. -/
theorem ciStarts_append (kw : List Char) : ∀ mid post, mid.length = kw.length →
    ciStarts kw mid = true → ciStarts kw (mid ++ post) = true := by
  induction kw with
  | nil => intro mid post _ _; rfl
  | cons a as ih =>
    intro mid post hlen h
    cases mid with
    | nil => simp at hlen
    | cons b bs =>
      simp only [ciStarts, Bool.and_eq_true] at h
      simp only [List.length_cons, Nat.succ.injEq] at hlen
      simpa only [List.cons_append, ciStarts, Bool.and_eq_true] using ⟨h.1, ih bs post hlen h.2⟩

/-- The carried previous character of a suffix reached through pre plus
a final character is that character. -/
theorem lastOr_concat (pre' : List Char) : ∀ prev c, lastOr prev (pre' ++ [c]) = some c := by
  induction pre' with
  | nil => intro prev c; rfl
  | cons d ds ih => intro prev c; exact ih (some d) c

/-- No SQL keyword is empty. -/
theorem sqlKeywords_ne_nil : ∀ kw ∈ sqlKeywords, kw.data ≠ [] := by decide

/-- A non-empty pattern never case-insensitively prefixes nothing. -/
theorem ciStarts_nil_false (kw : List Char) (hk : kw ≠ []) : ciStarts kw [] = false := by
  cases kw with
  | nil => exact absurd rfl hk
  | cons a as => rfl

/-- No keyword occurrence starts at the end of the text. -/
theorem kwHere_nil_false (kw : List Char) (hk : kw ≠ []) (x : Option Char) :
    kwHere kw x [] = false := by
  unfold kwHere
  rw [ciStarts_nil_false kw hk]
  simp

/-- The keyword scan finds exactly the suffix positions carrying a
bounded keyword occurrence, with the carried previous character
tracking the split point. -/
theorem sqlScanAux_iff (cs : List Char) : ∀ prev, (sqlScanAux prev cs = true ↔
    ∃ pre rest, cs = pre ++ rest ∧
      ∃ kw ∈ sqlKeywords, kwHere kw.data (lastOr prev pre) rest = true) := by
  induction cs with
  | nil =>
    intro prev
    constructor
    · intro h; simp [sqlScanAux] at h
    · rintro ⟨pre, rest, hsplit, kw, hkw, hhere⟩
      have hrest : rest = [] := (List.append_eq_nil.mp hsplit.symm).2
      subst hrest
      rw [kwHere_nil_false kw.data (sqlKeywords_ne_nil kw hkw) _] at hhere
      exact absurd hhere (by simp)
  | cons c cs ih =>
    intro prev
    unfold sqlScanAux
    rw [Bool.or_eq_true, List.any_eq_true, ih (some c)]
    constructor
    · rintro (⟨kw, hkw, hhere⟩ | ⟨pre, rest, hsplit, kw, hkw, hhere⟩)
      · exact ⟨[], c :: cs, rfl, kw, hkw, hhere⟩
      · exact ⟨c :: pre, rest, by simp [hsplit], kw, hkw, hhere⟩
    · rintro ⟨pre, rest, hsplit, kw, hkw, hhere⟩
      cases pre with
      | nil =>
        left
        simp only [List.nil_append] at hsplit
        subst hsplit
        exact ⟨kw, hkw, hhere⟩
      | cons c2 pre' =>
        right
        simp only [List.cons_append, List.cons.injEq] at hsplit
        obtain ⟨rfl, hsplit2⟩ := hsplit
        exact ⟨pre', rest, hsplit2, kw, hkw, hhere⟩

/-- The source's SQL regex test holds exactly on the spec's word-boundary
occurrence description. -/
theorem hasSQLKeyword_iff (q : String) : hasSQLKeyword q = true ↔ SpecSQLMatch q := by
  unfold hasSQLKeyword SpecSQLMatch
  rw [sqlScanAux_iff q.data none]
  constructor
  · rintro ⟨pre, rest, hsplit, kw, hkw, hhere⟩
    unfold kwHere at hhere
    simp only [Bool.and_eq_true] at hhere
    obtain ⟨⟨hprev, hci⟩, hafter⟩ := hhere
    have hlen : kw.data.length ≤ rest.length := ciStarts_le kw.data rest hci
    refine ⟨pre, rest.take kw.data.length, rest.drop kw.data.length,
      ?_, ⟨kw, hkw, ?_, ?_⟩, ?_, ?_⟩
    · rw [hsplit, List.append_assoc, List.take_append_drop]
    · rw [List.length_take]
      exact Nat.min_eq_left hlen
    · exact ciStarts_take kw.data rest hci
    · rcases List.eq_nil_or_concat pre with h | ⟨pre', c, h⟩
      · exact Or.inl h
      · rw [List.concat_eq_append] at h
        right
        refine ⟨pre', c, h, ?_⟩
        rw [h, lastOr_concat pre' none c] at hprev
        simpa using hprev
    · unfold boundaryAfter at hafter
      cases hd : rest.drop kw.data.length with
      | nil => exact Or.inl rfl
      | cons c post' =>
        right
        rw [hd] at hafter
        exact ⟨c, post', rfl, by simpa using hafter⟩
  · rintro ⟨pre, mid, post, hsplit, ⟨kw, hkw, hlen, hci⟩, hpre, hpost⟩
    refine ⟨pre, mid ++ post, by rw [hsplit, List.append_assoc], kw, hkw, ?_⟩
    unfold kwHere
    simp only [Bool.and_eq_true]
    refine ⟨⟨?_, ?_⟩, ?_⟩
    · rcases hpre with rfl | ⟨pre', c, rfl, hc⟩
      · rfl
      · rw [lastOr_concat pre' none c]
        simpa using hc
    · exact ciStarts_append kw.data mid post hlen hci
    · unfold boundaryAfter
      rw [← hlen, List.drop_left]
      rcases hpost with rfl | ⟨c, post', rfl, hc⟩
      · rfl
      · simpa using hc

/-- The source's GraphQL-look test holds exactly on the claim's rule. -/
theorem looksGraphQL_iff (q : String) : looksGraphQL q = true ↔ SpecGraphQLLook q := by
  cases he : q.data.isEmpty with
  | true =>
    have hnil : q.data = [] := by simpa using he
    obtain ⟨d⟩ := q
    simp only [String.data] at hnil
    subst hnil
    unfold SpecGraphQLLook
    decide
  | false =>
    unfold looksGraphQL SpecGraphQLLook
    rw [he]
    simp only [Bool.not_false, Bool.true_and, Bool.or_eq_true, Bool.and_eq_true, or_assoc]

/-- The source's guarded SQL test holds exactly on the spec's occurrence
description (the truthiness guard only reaffirms that the empty query
carries no keyword). -/
theorem hasSQLQuery_iff (q : String) : hasSQLQuery q = true ↔ SpecSQLMatch q := by
  unfold hasSQLQuery
  cases he : q.data.isEmpty with
  | false =>
    rw [Bool.and_eq_true]
    constructor
    · intro h; exact (hasSQLKeyword_iff q).mp h.2
    · intro h; exact ⟨by simp [he], (hasSQLKeyword_iff q).mpr h⟩
  | true =>
    have hnil : q.data = [] := by simpa using he
    constructor
    · intro h
      simp at h
    · rintro ⟨pre, mid, post, hsplit, ⟨kw, hkw, hlen, _⟩, _, _⟩
      rw [hnil] at hsplit
      have hmid : mid = [] := by
        have h0 := List.append_eq_nil.mp hsplit.symm
        exact (List.append_eq_nil.mp h0.1).2
      have : kw.data = [] := by
        rw [hmid] at hlen
        exact List.eq_nil_of_length_eq_zero hlen.symm
      exact absurd this (sqlKeywords_ne_nil kw hkw)

/-! The claims. -/

/-- Claim C1: classification of a response follows the priority Python
Execution Result over Schema Introspection over SDL over Tabular over
plain text; in particular the priority payload, though it satisfies the
schema and tabular classifiers as well, classifies as a Python result
(the dispatch itself is modelled from the spec, the classifiers are the
source's). -/
theorem claim_C1_response_priority :
    (∀ t d, getPythonResultData t = some d → classifyResponse t = .pythonResult d) ∧
    (∀ t d, getPythonResultData t = none → getGraphQLSchemaData t = some d →
      classifyResponse t = .graphqlSchema d) ∧
    (∀ t d, getPythonResultData t = none → getGraphQLSchemaData t = none →
      getGraphQLSDLData t = some d → classifyResponse t = .graphqlSDL d) ∧
    (∀ t d, getPythonResultData t = none → getGraphQLSchemaData t = none →
      getGraphQLSDLData t = none → getTabularData t = some d →
      classifyResponse t = .tabularData d) ∧
    classifyResponse prioPayload = .pythonResult prioParsed ∧
    (getGraphQLSchemaData prioPayload).isSome = true ∧
    (getTabularData prioPayload).isSome = true := by
  refine ⟨?_, ?_, ?_, ?_, rfl, rfl, rfl⟩
  · intro t d h; unfold classifyResponse; rw [h]
  · intro t d h1 h2; unfold classifyResponse; rw [h1, h2]
  · intro t d h1 h2 h3; unfold classifyResponse; rw [h1, h2, h3]
  · intro t d h1 h2 h3 h4; unfold classifyResponse; rw [h1, h2, h3, h4]

/-- Witness for claim C1 at the priority payload. -/
theorem claim_C1_response_priority_witness :
    classifyResponse prioPayload = .pythonResult prioParsed :=
  claim_C1_response_priority.1 prioPayload prioParsed rfl

/-- Claim C2, counterexample: a whole-string-escaped payload passes the
pre-filter, fails the direct parse, and would parse after Escape
Normalization of the whole raw string into a valid Python result shape,
yet getPythonResultData returns the unparseable outcome: the claimed
normalization step does not exist. -/
theorem claim_C2_no_whole_string_normalization :
    pyPrefilter escapedPayload = true ∧
    parseJson escapedPayload = none ∧
    parseJson (specEscapeNormalize escapedPayload) =
      some (.obj [("success", .bool true), ("output", .str "ok")]) ∧
    pyShape (.obj [("success", .bool true), ("output", .str "ok")]) = true ∧
    getPythonResultData escapedPayload = none :=
  ⟨rfl, rfl, rfl, rfl, rfl⟩

/-- Claim C2, amended: the recovery attempts, in order, are the direct
parse (whose parsed value is then classified, a thrown property access
falling through to recovery), the guarded envelope extraction on the
trimmed text, and the guarded truncation repair; whole-string escape
normalization is never attempted, and every failure yields the
unparseable outcome with no exception escaping. -/
theorem claim_C2_recovery_order_amended :
    ∀ t, getPythonResultData t = amendedRecovery t := by
  intro t
  unfold getPythonResultData amendedRecovery
  cases he : t.data.isEmpty <;> cases hp : pyPrefilter t <;> simp [he, hp]
  cases hj : parseJson t
  · rfl
  · rfl

/-- Claim C3, counterexample: a non-JSON response containing a literal
backslash-t falls back to plain text carrying the raw text unchanged,
not its Escape-Normalized form. -/
theorem claim_C3_fallback_keeps_raw_text :
    classifyResponse rawBackslashText = .plainText rawBackslashText ∧
    specEscapeNormalize rawBackslashText ≠ rawBackslashText :=
  ⟨rfl, by decide⟩

/-- Claim C3, amended: classification is total; a response no classifier
matches resolves to plain text whose extracted text is the raw input,
pretty-printed with a two-space indent when it parses as JSON and
otherwise unchanged; the example input stays as it is. -/
theorem claim_C3_plaintext_fallback_amended :
    (∀ t, getPythonResultData t = none → getGraphQLSchemaData t = none →
      getGraphQLSDLData t = none → getTabularData t = none →
      classifyResponse t = .plainText (formatText t)) ∧
    (∀ t, parseJson t = none → formatText t = t) ∧
    (∀ t v, parseJson t = some v → formatText t = stringify2 v) ∧
    classifyResponse "not json at all" = .plainText "not json at all" := by
  refine ⟨?_, ?_, ?_, rfl⟩
  · intro t h1 h2 h3 h4; unfold classifyResponse; rw [h1, h2, h3, h4]
  · intro t h; unfold formatText; rw [h]
  · intro t v h; unfold formatText; rw [h]

/-- Witness for claim C3 at the example input. -/
theorem claim_C3_plaintext_fallback_amended_witness :
    classifyResponse "not json at all" = .plainText (formatText "not json at all") :=
  claim_C3_plaintext_fallback_amended.1 "not json at all" rfl rfl rfl rfl

/-- Claim C4: the extraction caps hold for every classified payload:
projected rows at most 50 with the true total and a truncation flag
exactly when rows were cut, shown schema types at most 20 with the true
filtered total, shown fields at most 10 with the overflow count; the
73-row array projects to exactly 50 rows, truncated, total 73. -/
theorem claim_C4_extraction_caps :
    (∀ v t, t ∈ projectTables v →
      t.rows.length ≤ 50 ∧ (t.truncated = true ↔ 50 < t.totalRowCount) ∧
      (t.truncated = true → t.rows.length = 50) ∧
      (t.truncated = false → t.rows.length = t.totalRowCount)) ∧
    (∀ ts, (typesShown ts).length ≤ 20) ∧
    (∀ ty, (fieldsShown ty).length ≤ 10) ∧
    (∀ ts, 20 < typesTotal ts → (typesShown ts).length = 20 ∧
      typesTotal ts = (filteredTypes ts).length) ∧
    (∀ ty fs, getField ty "fields" = some (.arr fs) → 10 < fs.length →
      (fieldsShown ty).length = 10 ∧ fieldsOverflow ty = fs.length - 10) ∧
    (projectTables rows73).map
      (fun t => (t.name, t.columns, t.rows.length, t.totalRowCount, t.truncated)) =
      [("items", ["a"], 50, 73, true)] := by
  refine ⟨?_, ?_, ?_, ?_, ?_, rfl⟩
  · intro v t ht
    unfold projectTables at ht
    obtain ⟨kv, _, heq⟩ := List.mem_filterMap.mp ht
    unfold projectTable at heq
    cases hc : columnsOf kv.2 with
    | nil => rw [hc] at heq; exact absurd heq (by simp)
    | cons c cs =>
      rw [hc] at heq
      obtain rfl := (Option.some.injEq _ _).mp heq
      refine ⟨?_, ?_, ?_, ?_⟩
      · simp [List.length_take]
      · simp
      · intro htr
        simp only [decide_eq_true_iff] at htr
        simp [List.length_take, Nat.min_eq_left (Nat.le_of_lt htr)]
      · intro htr
        simp only [decide_eq_false_iff_not, Nat.not_lt] at htr
        simp [List.length_take, Nat.min_eq_right htr]
  · intro ts
    unfold typesShown
    simp [List.length_take]
  · intro ty
    unfold fieldsShown
    cases hf : getField ty "fields" with
    | none => simp
    | some v => cases v <;> simp [List.length_take]
  · intro ts h
    unfold typesShown
    unfold typesTotal at h ⊢
    exact ⟨by rw [List.length_take]; exact Nat.min_eq_left (Nat.le_of_lt h), rfl⟩
  · intro ty fs hf hlen
    unfold fieldsShown fieldsOverflow
    rw [hf]
    exact ⟨by rw [List.length_take]; exact Nat.min_eq_left (Nat.le_of_lt hlen), rfl⟩

/-- Witness for claim C4 at the 73-row payload. -/
theorem claim_C4_extraction_caps_witness :
    rows73Table.rows.length ≤ 50 ∧
    (rows73Table.truncated = true ↔ 50 < rows73Table.totalRowCount) ∧
    (rows73Table.truncated = true → rows73Table.rows.length = 50) ∧
    (rows73Table.truncated = false → rows73Table.rows.length = rows73Table.totalRowCount) :=
  claim_C4_extraction_caps.1 rows73 rows73Table (List.mem_singleton.mpr rfl)

/-- Claim C5, counterexample: a response whose object-valued data field
exhibits neither a non-empty array-of-objects field nor an aggregate
field is still matched by the tabular classifier, which returns a truthy
object-typed data property without any shape check. -/
theorem claim_C5_data_unwrap_unchecked :
    parseJson plainDataPayload = some (.obj [("data", .obj [("x", .num 1)])]) ∧
    getTabularData plainDataPayload = some (.obj [("x", .num 1)]) ∧
    hasTabularShape (.obj [("x", .num 1)]) = false ∧
    hasAggregateShape (.obj [("x", .num 1)]) = false :=
  ⟨rfl, rfl, rfl, rfl⟩

/-- Claim C5, amended: the tabular classifier matches exactly per the
amended description: an unchecked truthy object-typed data property,
else the envelope's inner data property (unchecked) or inner tabular
shape, else the direct tabular or aggregate shape, else a bare array of
objects. -/
theorem claim_C5_tabular_match_amended :
    ∀ t, (getTabularData t).isSome =
      (match parseJson t with
       | some p => amendedTabularMatch p
       | none => false) := by
  intro t
  cases he : t.data.isEmpty with
  | true => simp [getTabularData, he, parseJson_of_empty t he]
  | false =>
    simp only [getTabularData, he, Bool.false_eq_true, if_false]
    cases hj : parseJson t with
    | none => simp
    | some p =>
      simp only [amendedTabularMatch]
      cases h1 : (truthy p && isObjTy p && truthyO (getField p "data") &&
          isObjTyO (getField p "data")) with
      | true =>
        simp only [h1, if_true]
        have h3 : truthyO (getField p "data") = true := by
          have h2 := h1
          simp only [Bool.and_eq_true] at h2
          exact h2.1.2
        cases hg : getField p "data" with
        | none => rw [hg] at h3; simp [truthyO] at h3
        | some v => simp
      | false =>
        simp only [h1, Bool.false_eq_true, if_false]
        cases p with
        | arr xs =>
          cases xs with
          | nil => exact tabularTail_isSome (.arr [])
          | cons first rest =>
            cases hn : isNull first with
            | true => simp [hn]
            | false =>
              simp only [hn, Bool.false_eq_true, if_false]
              cases ht : typeIsText first with
              | false =>
                simp only [ht, Bool.false_eq_true, if_false]
                exact tabularTail_isSome _
              | true =>
                simp only [ht, if_true]
                cases hi : jsonParseJS (getField first "text") with
                | none => exact tabularTail_isSome _
                | some inner =>
                  cases h4 : (truthy inner && isObjTy inner) with
                  | false =>
                    simp only [h4, Bool.false_eq_true, if_false]
                    exact tabularTail_isSome _
                  | true =>
                    simp only [h4, if_true]
                    cases h5 : (truthyO (getField inner "data") &&
                        isObjTyO (getField inner "data")) with
                    | true =>
                      simp only [h5, if_true]
                      have h6 : truthyO (getField inner "data") = true := by
                        have h2 := h5
                        simp only [Bool.and_eq_true] at h2
                        exact h2.1
                      cases hg : getField inner "data" with
                      | none => rw [hg] at h6; simp [truthyO] at h6
                      | some v => simp
                    | false =>
                      simp only [h5, Bool.false_eq_true, if_false]
                      cases h7 : hasTabularShape inner with
                      | true => simp [h7]
                      | false =>
                        simp only [h7, Bool.false_eq_true, if_false]
                        exact tabularTail_isSome _
        | null => exact tabularTail_isSome .null
        | bool b => exact tabularTail_isSome (.bool b)
        | num n => exact tabularTail_isSome (.num n)
        | str s2 => exact tabularTail_isSome (.str s2)
        | obj fs => exact tabularTail_isSome (.obj fs)

/-- Claim C6, counterexample: a bare SDL text containing both the schema
and type substrings is not matched by the SDL classifier (the raw
string is never consulted) and the response classifies as plain text. -/
theorem claim_C6_bare_sdl_not_matched :
    jsIncludes bareSDLText "schema" = true ∧ jsIncludes bareSDLText "type" = true ∧
    getGraphQLSDLData bareSDLText = none ∧
    classifyResponse bareSDLText = .plainText bareSDLText :=
  ⟨rfl, rfl, rfl, rfl⟩

/-- Claim C6, amended: the SDL classifier matches exactly when the parsed
response is a text envelope whose first element carries a truthy string
text containing both substrings, or a value with a truthy string text
property containing both; case (c) of the claim — the raw string itself —
never matches. -/
theorem claim_C6_sdl_match_amended :
    ∀ t, (getGraphQLSDLData t).isSome =
      (match parseJson t with
       | some p => amendedSDLMatch p
       | none => false) := by
  intro t
  cases he : t.data.isEmpty with
  | true => simp [getGraphQLSDLData, he, parseJson_of_empty t he]
  | false =>
    simp only [getGraphQLSDLData, he, Bool.false_eq_true, if_false]
    cases hj : parseJson t with
    | none => simp
    | some p =>
      simp only [amendedSDLMatch]
      cases p with
      | arr xs =>
        cases xs with
        | nil => rfl
        | cons first rest =>
          cases hn : isNull first with
          | true => simp [hn]
          | false =>
            simp only [hn, Bool.false_eq_true, if_false]
            cases hg : (typeIsText first && truthyO (getField first "text")) with
            | false => simp only [hg, Bool.false_eq_true, if_false]
            | true =>
              simp only [hg, if_true]
              cases htx : getField first "text" with
              | none => rfl
              | some v =>
                cases v with
                | str s2 =>
                  cases hi : (jsIncludes s2 "schema" && jsIncludes s2 "type") with
                  | true => simp [hi]
                  | false => simp only [hi, Bool.false_eq_true, if_false]
                | null => rfl
                | bool b => rfl
                | num n => rfl
                | arr ys => rfl
                | obj fs => rfl
      | null => rfl
      | bool b => rfl
      | num n => rfl
      | str s2 => rfl
      | obj fs => rfl

/-- Claim C7: for a request parsing to an object with a string query
field, the extracted query kind is GraphQL exactly on the claim's
GraphQL rule; SQL exactly when a SQL keyword occurs at a word boundary
and the query does not look like GraphQL; generic exactly otherwise. -/
theorem claim_C7_query_kind (s : String) (p : Json) (q : String)
    (_hs : parseJson s = some p) (_hq : getField p "query" = some (.str q)) :
    (queryKindOf q = .graphql ↔ SpecGraphQLLook q) ∧
    (queryKindOf q = .sql ↔ (SpecSQLMatch q ∧ ¬ SpecGraphQLLook q)) ∧
    (queryKindOf q = .generic ↔ (¬ SpecGraphQLLook q ∧ ¬ SpecSQLMatch q)) := by
  unfold queryKindOf
  cases hg : looksGraphQL q with
  | true =>
    have hG : SpecGraphQLLook q := (looksGraphQL_iff q).mp hg
    simp [hG]
  | false =>
    have hG : ¬ SpecGraphQLLook q := fun h => by
      rw [(looksGraphQL_iff q).mpr h] at hg
      exact Bool.true_eq_false.mp hg
    cases hs2 : hasSQLQuery q with
    | true =>
      have hS : SpecSQLMatch q := (hasSQLQuery_iff q).mp hs2
      simp [hG, hS]
    | false =>
      have hS : ¬ SpecSQLMatch q := fun h => by
        rw [(hasSQLQuery_iff q).mpr h] at hs2
        exact Bool.true_eq_false.mp hs2
      simp [hG, hS]

/-- Witness for claim C7 at a SELECT request. -/
theorem claim_C7_query_kind_witness :
    (queryKindOf "SELECT 1" = .sql ↔
      (SpecSQLMatch "SELECT 1" ∧ ¬ SpecGraphQLLook "SELECT 1")) ∧
    queryKindOf "SELECT 1" = .sql :=
  ⟨(claim_C7_query_kind "\x7b\"query\":\"SELECT 1\"\x7d"
      (.obj [("query", .str "SELECT 1")]) "SELECT 1" rfl rfl).2.1,
   rfl⟩

/-- Claim C8: the input missing only its closing brace fails the direct
parse, the truncation repair recovers the object with success true and
output done, and the response classifies as a Python result. -/
theorem claim_C8_truncation_repair :
    parseJson truncatedPayload = none ∧
    getPythonResultData truncatedPayload =
      some (.obj [("success", .bool true), ("output", .str "done")]) ∧
    classifyResponse truncatedPayload =
      .pythonResult (.obj [("success", .bool true), ("output", .str "done")]) :=
  ⟨rfl, rfl, rfl⟩

/-- Claim C9, counterexample: the query display's escape cleanup maps the
tab escape to two spaces and leaves double backslashes alone, so the
extracted query text is not the spec's four-rule normalization of the
query field. -/
theorem claim_C9_site_normalizers_differ :
    getGraphQLQueryData escQueryPayload = some (.obj [("query", .str "a\\tb")]) ∧
    formatQueryText "a\\tb" = "a  b" ∧
    specEscapeNormalize "a\\tb" = "a\tb" ∧
    ("a  b" : String) ≠ "a\tb" ∧
    formatQueryText "\\\\" = "\\\\" ∧
    specEscapeNormalize "\\\\" = "\\" :=
  ⟨rfl, rfl, rfl, by decide, rfl, rfl⟩

/-- Claim C9, amended: escape cleanup is site-specific; each site's
replacement chain is a pure total function fixing backslash-free text,
the query/code site replaces the tab escape by two spaces and has no
double-backslash rule, the SDL site adds the double-backslash rule but
keeps two spaces for tabs, and the Python result paths replace the tab
escape by a real tab and double backslashes by one. -/
theorem claim_C9_normalizers_amended :
    (∀ s : String, '\\' ∉ s.data →
      formatQueryText s = s ∧ cleanSDLText s = s ∧ cleanPyInner s = s ∧
      unescapeExtracted s = s) ∧
    formatQueryText "\\n" = "\n" ∧ formatQueryText "\\t" = "  " ∧
    formatQueryText "\\\\" = "\\\\" ∧
    cleanSDLText "\\t" = "  " ∧ cleanSDLText "\\\\" = "\\" ∧
    cleanPyInner "\\t" = "\t" ∧ cleanPyInner "\\\\" = "\\" ∧
    unescapeExtracted "\\\"" = "\"" ∧ unescapeExtracted "\\t" = "\t" := by
  refine ⟨?_, rfl, rfl, rfl, rfl, rfl, rfl, rfl, rfl, rfl⟩
  intro s h
  exact ⟨formatQueryText_id s h, cleanSDLText_id s h, cleanPyInner_id s h,
    unescapeExtracted_id s h⟩

/-- Witness for claim C9 at a backslash-free text. -/
theorem claim_C9_normalizers_amended_witness :
    formatQueryText "plain text" = "plain text" ∧
    cleanSDLText "plain text" = "plain text" ∧
    cleanPyInner "plain text" = "plain text" ∧
    unescapeExtracted "plain text" = "plain text" :=
  claim_C9_normalizers_amended.1 "plain text" (by decide)

/-- Claim C10: a request whose query (respectively code) field is
present but empty is not matched by the query (respectively code)
classifier, the match requiring a truthy string; and a request whose
query and code fields are each absent or empty falls through to the
plain-text fallback (the request dispatch is modelled from the spec, the
classifiers are the source's). -/
theorem claim_C10_empty_field_no_match :
    (∀ s p, parseJson s = some p → getField p "query" = some (.str "") →
      getGraphQLQueryData s = none) ∧
    (∀ s p, parseJson s = some p → getField p "code" = some (.str "") →
      getPythonCodeData s = none) ∧
    (∀ s p, parseJson s = some p →
      (getField p "query" = none ∨ getField p "query" = some (.str "")) →
      (getField p "code" = none ∨ getField p "code" = some (.str "")) →
      classifyRequest s = .plainText (formatText s)) := by
  have hq : ∀ s p, parseJson s = some p →
      (getField p "query" = none ∨ getField p "query" = some (.str "")) →
      getGraphQLQueryData s = none := by
    intro s p hs hf
    cases p with
    | obj fs =>
      rcases hf with hf | hf
      · have hf' : lookupField fs "query" = none := hf
        simp only [getGraphQLQueryData, hs, hf']
      · have hf' : lookupField fs "query" = some (.str "") := hf
        simp only [getGraphQLQueryData, hs, hf']
        rfl
    | null => simp only [getGraphQLQueryData, hs]
    | bool b => simp only [getGraphQLQueryData, hs]
    | num n => simp only [getGraphQLQueryData, hs]
    | str s2 => simp only [getGraphQLQueryData, hs]
    | arr xs => simp only [getGraphQLQueryData, hs]
  have hc : ∀ s p, parseJson s = some p →
      (getField p "code" = none ∨ getField p "code" = some (.str "")) →
      getPythonCodeData s = none := by
    intro s p hs hf
    cases p with
    | obj fs =>
      rcases hf with hf | hf
      · have hf' : lookupField fs "code" = none := hf
        simp only [getPythonCodeData, hs, hf']
      · have hf' : lookupField fs "code" = some (.str "") := hf
        simp only [getPythonCodeData, hs, hf']
        rfl
    | null => simp only [getPythonCodeData, hs]
    | bool b => simp only [getPythonCodeData, hs]
    | num n => simp only [getPythonCodeData, hs]
    | str s2 => simp only [getPythonCodeData, hs]
    | arr xs => simp only [getPythonCodeData, hs]
  refine ⟨fun s p hs hf => hq s p hs (Or.inr hf),
          fun s p hs hf => hc s p hs (Or.inr hf),
          fun s p hs hfq hfc => ?_⟩
  unfold classifyRequest
  rw [hq s p hs hfq, hc s p hs hfc]

/-- Witness for claim C10 at requests with empty query and code fields. -/
theorem claim_C10_empty_field_no_match_witness :
    getGraphQLQueryData emptyQueryPayload = none ∧
    getPythonCodeData emptyCodePayload = none ∧
    classifyRequest emptyQueryPayload = .plainText (formatText emptyQueryPayload) :=
  ⟨claim_C10_empty_field_no_match.1 emptyQueryPayload (.obj [("query", .str "")]) rfl rfl,
   claim_C10_empty_field_no_match.2.1 emptyCodePayload (.obj [("code", .str "")]) rfl rfl,
   claim_C10_empty_field_no_match.2.2 emptyQueryPayload (.obj [("query", .str "")]) rfl
     (Or.inr rfl) (Or.inl rfl)⟩

end ToolCallView
